import Mathlib

/-!
Shallow embedding of `src/scripts/parse-history.js` (a pump.fun trade-history
parser).  The repository file contains two variants of the same script,
separated by a document marker: the first ("V1") decodes the payload in full
mode (137-byte check, async decode chained after classification), the second
("V2") decodes in minimal mode (offsets 48/56/64, synchronous decode inside
the fetch callback).  Both share the same bounded-concurrency scheduler
(`getTransactionDetails` / `startNext`).

Conventions of the embedding:
* byte blobs are `List Nat` (the result of `bs58.decode(instruction.data)`;
  base58 decoding itself is an injective pure function and is not modelled);
* JavaScript `Buffer.readBigInt64LE` is modelled as the two's-complement
  reading of 8 little-endian bytes (`readInt64LE`);
* `Uint8Array.slice(a, b)` clamps to the array length, so a read throws
  (ERR_OUT_OF_RANGE) exactly when fewer than 8 bytes remain;
* amounts are kept as `Int` (the script stringifies them with `toString()`,
  which is injective on integers);
* the fetch pipeline is modelled as a small-step machine driven by an
  explicit schedule, one label per promise-completion event, which captures
  every completion order of the concurrent fetches.
-/

/-- The target program id checked by the classifier
(`PUMPFUN_PROGRAM_ID` in the source). -/
def PUMPFUN_PROGRAM_ID : String := "6EF8rrecthR5Dkzon8Nwu78hRvfCKubJ14M5uBEwF6P"

/-- Does `needle` occur as a contiguous sublist of the second argument? -/
def hasInfix (needle : List Char) : List Char → Bool
  | [] => needle.isEmpty
  | c :: rest => needle.isPrefixOf (c :: rest) || hasInfix needle rest

/-- JavaScript `haystack.includes(needle)`: substring containment. -/
def containsSubstring (haystack needle : String) : Bool :=
  hasInfix needle.toList haystack.toList

/-- One instruction entry: a program reference and an (already
base58-decoded) data blob.  Mirrors the fields the script reads. -/
structure Instruction where
  programId : String
  data : List Nat
deriving DecidableEq

/-- One inner-instruction group (`tx.meta.innerInstructions[k]`). -/
structure InnerGroup where
  instructions : List Instruction
deriving DecidableEq

/-- `tx.transaction.message`. -/
structure TxMessage where
  instructions : List Instruction
deriving DecidableEq

/-- `tx.transaction`. -/
structure TxTransaction where
  message : TxMessage
  signatures : List String
deriving DecidableEq

/-- `tx.meta`.  `err = none` models a `null` error field (success);
`tx.meta?.innerInstructions ?? []` makes an absent list equal to `[]`,
so the list is modelled directly. -/
structure TxMeta where
  logMessages : List String
  innerInstructions : List InnerGroup
  err : Option Nat
deriving DecidableEq

/-- A fetched transaction record (`VersionedTransactionResponse`),
restricted to the fields the script reads. -/
structure TxData where
  transaction : TxTransaction
  meta : TxMeta
  slot : Nat
  blockTime : Int
deriving DecidableEq

/-- Does some outer instruction reference the pump.fun program?
(`tx.transaction.message.instructions.some(i => i.programId.equals(...))`). -/
def referencesPumpfun (tx : TxData) : Bool :=
  tx.transaction.message.instructions.any (fun i => i.programId == PUMPFUN_PROGRAM_ID)

/-- Does some log message contain the given marker?
(`tx.meta.logMessages.some(log => log.includes(marker))`). -/
def hasLogContaining (tx : TxData) (marker : String) : Bool :=
  tx.meta.logMessages.any (fun log => containsSubstring log marker)

/-- `isPumpfunTx` (identical in both script variants): 0 for not pump.fun,
1 for buy, 2 for sell.  Buy is checked before Sell. -/
def isPumpfunTx (tx : TxData) : Nat :=
  if referencesPumpfun tx then
    if hasLogContaining tx "Program log: Instruction: Buy" then 1
    else if hasLogContaining tx "Program log: Instruction: Sell" then 2
    else 0
  else 0

/-- Unsigned little-endian 64-bit read at `off`: the value
`b[off] + 256*b[off+1] + ... + 256^7*b[off+7]` (missing bytes read as 0;
callers guard the range as the source does). -/
def readUInt64LE (b : List Nat) (off : Nat) : Nat :=
  b.getD off 0 +
    256 * (b.getD (off + 1) 0 +
      256 * (b.getD (off + 2) 0 +
        256 * (b.getD (off + 3) 0 +
          256 * (b.getD (off + 4) 0 +
            256 * (b.getD (off + 5) 0 +
              256 * (b.getD (off + 6) 0 +
                256 * b.getD (off + 7) 0))))))

/-- Two's-complement reinterpretation of an unsigned 64-bit value, as done
by `Buffer.readBigInt64LE`. -/
def toInt64 (n : Nat) : Int :=
  if n < 2 ^ 63 then (n : Int) else (n : Int) - 2 ^ 64

/-- `Buffer.from(b.slice(off, off+8)).readBigInt64LE()`:
signed little-endian 64-bit read. -/
def readInt64LE (b : List Nat) (off : Nat) : Int :=
  toInt64 (readUInt64LE b off)

/-- Fields extracted by the minimal-mode decoder (script variant 2):
`{ solAmount, tokenAmount, isBuy }`. -/
structure MinimalResult where
  solAmount : Int
  tokenAmount : Int
  isBuy : Bool
deriving DecidableEq

/-- Outcome of a minimal-mode decode of one blob: `malformed` models the
`ERR_OUT_OF_RANGE` exception thrown by `readBigInt64LE`. -/
inductive MinDecode where
  | malformed : MinDecode
  | ok : MinimalResult → MinDecode
deriving DecidableEq

/-- Minimal-mode decode of one blob (body of variant 2's `parsePumpfunTx`):
`slice(48,56)` and `slice(56,64)` clamp to the blob length, and
`readBigInt64LE` throws when the sliced buffer has fewer than 8 bytes;
`encoded[64]` reads `undefined` past the end, and `undefined == 1` is
`false`, modelled by comparing `b[64]?` against `some 1`. -/
def decodeMin (encoded : List Nat) : MinDecode :=
  if ((encoded.drop 48).take 8).length < 8 ∨ ((encoded.drop 56).take 8).length < 8 then
    .malformed
  else
    .ok { solAmount := readInt64LE encoded 48
        , tokenAmount := readInt64LE encoded 56
        , isBuy := encoded[64]? == some 1 }

/-- Fields extracted by the full-mode decoder (script variant 1):
mint (raw bytes 16..47), solAmount, tokenAmount, isBuy, timestamp. -/
structure DecodedEventFull where
  mint : List Nat
  solAmount : Int
  tokenAmount : Int
  isBuy : Bool
  timestamp : Int
deriving DecidableEq

/-- Full-mode decode of one blob (loop body of variant 1's
`parsePumpfunTx`): `if (encoded.length != 137) continue;` means a blob of
any other length produces nothing. -/
def decodeFull (encoded : List Nat) : Option DecodedEventFull :=
  if encoded.length = 137 then
    some { mint := (encoded.drop 16).take 32
         , solAmount := readInt64LE encoded 48
         , tokenAmount := readInt64LE encoded 56
         , isBuy := encoded[64]? == some 1
         , timestamp := readInt64LE encoded 97 }
  else none

/-- The inner-instruction scan order of `parsePumpfunTx`: all instructions
of all inner-instruction groups, in order. -/
def flattenInner (tx : TxData) : List Instruction :=
  (tx.meta.innerInstructions.map (fun g => g.instructions)).flatten

/-- Outcome of variant 2's `parsePumpfunTx` on a whole record: the function
returns `undefined` when no inner instruction references the target program
(`noMatch`), throws out of the first matching instruction when its blob is
too short (`thrown`), and otherwise returns the minimal fields. -/
inductive MinParse where
  | thrown : MinParse
  | noMatch : MinParse
  | parsed : MinimalResult → MinParse
deriving DecidableEq

/-- Variant 2's `parsePumpfunTx`: take the first inner instruction whose
program id is the pump.fun program and decode its blob in minimal mode
(a decode exception propagates; scanning does not continue). -/
def parsePumpfunTxMin (tx : TxData) : MinParse :=
  match (flattenInner tx).find? (fun i => i.programId == PUMPFUN_PROGRAM_ID) with
  | none => .noMatch
  | some inst =>
    match decodeMin inst.data with
    | .malformed => .thrown
    | .ok r => .parsed r

/-- Variant 1's `parsePumpfunTx`, payload part: scan matching inner
instructions in order and return the first whose blob decodes in full mode
(`continue` skips blobs of the wrong length); `none` models the
`undefined` return when no instruction yields an event. -/
def parsePumpfunTxFull (tx : TxData) : Option DecodedEventFull :=
  ((flattenInner tx).filter (fun i => i.programId == PUMPFUN_PROGRAM_ID)).findSome?
    (fun i => decodeFull i.data)

/-- Outcome of one `connection.getParsedTransaction` call: the promise
either rejects (network/service error, handled by `.catch`) or resolves
with a record. -/
inductive FetchOutcome where
  | failure : FetchOutcome
  | success : TxData → FetchOutcome
deriving DecidableEq

/-- One entry of the input identifier list: a signature string plus the
environment-chosen outcome of fetching it. -/
structure SigInfo where
  signature : String
  outcome : FetchOutcome
deriving DecidableEq

/-- `const batchSize = 20;` — the concurrency ceiling. -/
def batchSize : Nat := 20

/-- State of one run of `getTransactionDetails`, over an abstract type `E`
of collected entries.  `launchLog` is a ghost log of the indices launched
so far, newest first; `pending` holds indices whose variant-1 decode chain
(`parsePumpfunTx(tx).then(...)`) has been started but has not completed;
`resolved` records the `(txCount, pumpfunCount)` pair captured when
`resolve` fires. -/
structure PState (E : Type) where
  completed : Nat
  inFlight : List Nat
  launchLog : List Nat
  pending : List Nat
  transactions : List E
  errorLog : List Nat
  resolved : Option (Nat × Nat)
deriving DecidableEq

/-- The part of the per-task callback that differs between the two script
variants: `fetchEffect` is the body of `.then(tx => ...)` (it may append
entries and/or start a pending decode task), `decodeEffect` is the body of
a pending decode task's continuation. -/
structure Variant (E : Type) where
  fetchEffect : Nat → SigInfo → TxData → List E → List Nat → List E × List Nat
  decodeEffect : Nat → SigInfo → TxData → List E → List E

/-- The `startNext` while loop:
`while (inProgress.size < batchSize && completed + inProgress.size <
signatures.length)` launch the identifier at index
`completed + inProgress.size`.  Each iteration grows `inProgress` by one,
so at most `batchSize` iterations run; the structural `fuel` argument is
always called with `batchSize`, which the guard makes sufficient. -/
def startNextLoop (n completed : Nat) : Nat → List Nat → List Nat → List Nat × List Nat
  | 0, fl, log => (fl, log)
  | fuel + 1, fl, log =>
    if fl.length < batchSize ∧ completed + fl.length < n then
      startNextLoop n completed fuel
        ((completed + fl.length) :: fl) ((completed + fl.length) :: log)
    else (fl, log)

/-- The `.then`/`.catch` part of one fetch task's completion: on a
rejected fetch, `.catch` logs the identifier; on a resolved fetch the
variant's `.then` body runs.  Returns the new
`(transactions, pending, errorLog)` triple. -/
def fetchUpdate {E : Type} (V : Variant E) (i : Nat) (sg : SigInfo)
    (s : PState E) : List E × List Nat × List Nat :=
  match sg.outcome with
  | .failure => (s.transactions, s.pending, s.errorLog ++ [i])
  | .success tx =>
    ((V.fetchEffect i sg tx s.transactions s.pending).1,
     (V.fetchEffect i sg tx s.transactions s.pending).2, s.errorLog)

/-- Completion of the in-flight fetch task for index `i`: the `.then`
(or `.catch`, on a failed fetch) body runs, then the `.finally` body:
remove the task, increment `completed`, call `startNext()`, and resolve
with `(signatures.length, transactions.length)` once
`completed === signatures.length`. -/
def stepFetch {E : Type} (V : Variant E) (sigs : List SigInfo) (i : Nat)
    (s : PState E) : PState E :=
  if s.inFlight.contains i then
    match sigs[i]? with
    | none => s
    | some sg =>
      { completed := s.completed + 1
      , inFlight := (startNextLoop sigs.length (s.completed + 1) batchSize
          (s.inFlight.erase i) s.launchLog).1
      , launchLog := (startNextLoop sigs.length (s.completed + 1) batchSize
          (s.inFlight.erase i) s.launchLog).2
      , pending := (fetchUpdate V i sg s).2.1
      , transactions := (fetchUpdate V i sg s).1
      , errorLog := (fetchUpdate V i sg s).2.2
      , resolved :=
          if s.completed + 1 = sigs.length then
            some (sigs.length, (fetchUpdate V i sg s).1.length)
          else s.resolved }
  else s

/-- Completion of a pending variant-1 decode task for index `i`. -/
def stepDecode {E : Type} (V : Variant E) (sigs : List SigInfo) (i : Nat)
    (s : PState E) : PState E :=
  if s.pending.contains i then
    match sigs[i]? with
    | none => s
    | some sg =>
      match sg.outcome with
      | .failure => s
      | .success tx =>
        { s with pending := s.pending.erase i
               , transactions := V.decodeEffect i sg tx s.transactions }
  else s

/-- One schedule entry: which promise settles next.  Quantifying over
schedules captures every completion order of the concurrent fetches. -/
inductive Label where
  | fetchDone : Nat → Label
  | decodeDone : Nat → Label
deriving DecidableEq

/-- The state at entry of the returned `Promise`: counters zeroed and the
initial synchronous `startNext()` call performed. -/
def pipeInit {E : Type} (sigs : List SigInfo) : PState E :=
  let (fl, log) := startNextLoop sigs.length 0 batchSize [] []
  { completed := 0, inFlight := fl, launchLog := log, pending := []
  , transactions := [], errorLog := [], resolved := none }

/-- Run `getTransactionDetails` under a given completion schedule. -/
def pipeRun {E : Type} (V : Variant E) (sigs : List SigInfo)
    (sched : List Label) : PState E :=
  sched.foldl
    (fun s l =>
      match l with
      | .fetchDone i => stepFetch V sigs i s
      | .decodeDone i => stepDecode V sigs i s)
    (pipeInit sigs)

/-- A collected entry of script variant 2 (`transactions.push({signature,
timestamp, slot, success, ...parsePumpfunTx(tx)})`).  `idx` is a ghost
field recording which input index produced the entry; `decoded = none`
models the spread of `undefined` (no `solAmount`/`tokenAmount`/`isBuy`
properties on the pushed object). -/
structure TxEntryV2 where
  idx : Nat
  signature : String
  timestamp : Int
  slot : Nat
  success : Bool
  decoded : Option MinimalResult
deriving DecidableEq

/-- Variant 2's `.then` body: on a classified-matched record, push an
entry; a decode exception (blob too short) is caught by `.catch`, so
nothing is pushed; a decode returning `undefined` still pushes the base
fields, with nothing spread in. -/
def v2Fetch (i : Nat) (sg : SigInfo) (tx : TxData) (txs : List TxEntryV2)
    (pend : List Nat) : List TxEntryV2 × List Nat :=
  if isPumpfunTx tx ≠ 0 then
    match parsePumpfunTxMin tx with
    | .thrown => (txs, pend)
    | .noMatch =>
      (txs ++ [{ idx := i, signature := sg.signature, timestamp := tx.blockTime
               , slot := tx.slot, success := tx.meta.err == none, decoded := none }], pend)
    | .parsed r =>
      (txs ++ [{ idx := i, signature := sg.signature, timestamp := tx.blockTime
               , slot := tx.slot, success := tx.meta.err == none, decoded := some r }], pend)
  else (txs, pend)

/-- Script variant 2 (synchronous minimal decode, no pending tasks). -/
def VariantV2 : Variant TxEntryV2 :=
  { fetchEffect := v2Fetch, decodeEffect := fun _ _ _ txs => txs }

/-- Variant 2's `getTransactionDetails` under a completion schedule. -/
def pipeRunV2 (sigs : List SigInfo) (sched : List Label) : PState TxEntryV2 :=
  pipeRun VariantV2 sigs sched

/-- A collected entry of script variant 1 (the object returned by the
async `parsePumpfunTx`, minus the externally-resolved `tokenName`, which
comes from the external name-resolver collaborator).  `idx` is ghost. -/
structure TxEntryV1 where
  idx : Nat
  mint : List Nat
  solAmount : Int
  tokenAmount : Int
  isBuy : Bool
  timestamp : Int
  slot : Nat
  signature : String
  success : Bool
deriving DecidableEq

/-- Variant 1's `.then` body: on a classified-matched record it only
starts `parsePumpfunTx(tx).then(parsed => ...)`; the push happens when
that chain completes. -/
def v1Fetch (i : Nat) (_ : SigInfo) (tx : TxData) (txs : List TxEntryV1)
    (pend : List Nat) : List TxEntryV1 × List Nat :=
  if isPumpfunTx tx ≠ 0 then (txs, pend ++ [i]) else (txs, pend)

/-- Variant 1's decode-chain continuation: if the payload parse produced an
event it is pushed; if it produced `undefined`, `showPumpfunTx(parsed)`
throws before the push, so nothing is appended. -/
def v1Decode (i : Nat) (_ : SigInfo) (tx : TxData) (txs : List TxEntryV1) :
    List TxEntryV1 :=
  match parsePumpfunTxFull tx with
  | none => txs
  | some r =>
    txs ++ [{ idx := i, mint := r.mint, solAmount := r.solAmount
            , tokenAmount := r.tokenAmount, isBuy := r.isBuy
            , timestamp := r.timestamp, slot := tx.slot
            , signature := tx.transaction.signatures.getD 0 ""
            , success := tx.meta.err == none }]

/-- Script variant 1 (asynchronous full decode). -/
def VariantV1 : Variant TxEntryV1 :=
  { fetchEffect := v1Fetch, decodeEffect := v1Decode }

/-- Variant 1's `getTransactionDetails` under a completion schedule. -/
def pipeRunV1 (sigs : List SigInfo) (sched : List Label) : PState TxEntryV1 :=
  pipeRun VariantV1 sigs sched

/-- `[k-1, ..., 1, 0]`: the launch log of a run that has launched exactly
the first `k` input positions, newest first. -/
def descRange (k : Nat) : List Nat :=
  (List.range k).reverse

/-- The 137-byte example payload documented in the trailing comment of the
source file (hex transcribed to decimal bytes). -/
def fixtureBlob : List Nat :=
  [228, 69, 165, 46, 81, 203, 154, 29, 189, 219, 127, 211, 78, 230, 97, 238,
   89, 42, 146, 171, 16, 98, 26, 143, 128, 81, 169, 221, 21, 210, 34, 151,
   144, 207, 15, 152, 221, 97, 203, 145, 229, 174, 47, 32, 77, 32, 208, 15,
   238, 163, 69, 29, 0, 0, 0, 0, 95, 100, 75, 184, 37, 11, 0, 0, 1, 236, 119,
   88, 53, 94, 149, 19, 129, 251, 199, 64, 45, 178, 197, 67, 229, 247, 199,
   212, 25, 215, 42, 63, 231, 205, 242, 0, 12, 251, 222, 101, 124, 239, 153,
   164, 103, 0, 0, 0, 0, 147, 158, 80, 107, 8, 0, 0, 0, 223, 1, 123, 39, 163,
   41, 3, 0, 147, 242, 44, 111, 1, 0, 0, 0, 223, 105, 104, 219, 17, 43, 2, 0]

/-- Bytes 16..47 of the fixture payload: the mint public key. -/
def fixtureMint : List Nat :=
  [89, 42, 146, 171, 16, 98, 26, 143, 128, 81, 169, 221, 21, 210, 34, 151,
   144, 207, 15, 152, 221, 97, 203, 145, 229, 174, 47, 32, 77, 32, 208, 15]

/-- A transaction record that the classifier marks as a buy and whose
inner instructions carry the fixture payload. -/
def buyTxFull : TxData :=
  { transaction :=
      { message := { instructions := [{ programId := PUMPFUN_PROGRAM_ID, data := [] }] }
      , signatures := ["sig0"] }
  , meta :=
      { logMessages := ["Program log: Instruction: Buy"]
      , innerInstructions :=
          [{ instructions := [{ programId := PUMPFUN_PROGRAM_ID, data := fixtureBlob }] }]
      , err := none }
  , slot := 7
  , blockTime := 1738840559 }

/-- Bookkeeping invariant of the `startNext` scheduler, for an input list
of length `n`: the launch log has one entry per completion or in-flight
task, launches are exactly positions `0..k-1` in order, in-flight indices
are distinct launched positions, at most `n` positions are ever launched,
the in-flight set respects the concurrency ceiling, and resolution can
only have happened with `txCount = n` after all `n` completions. -/
structure SchedInv {E : Type} (n : Nat) (s : PState E) : Prop where
  log_len : s.launchLog.length = s.completed + s.inFlight.length
  log_desc : s.launchLog = descRange s.launchLog.length
  flight_nodup : s.inFlight.Nodup
  flight_lt : ∀ i ∈ s.inFlight, i < s.launchLog.length
  log_le : s.launchLog.length ≤ n
  flight_le : s.inFlight.length ≤ batchSize
  resolved_eq : ∀ p, s.resolved = some p → p.1 = n ∧ s.completed = n

theorem descRange_succ (k : Nat) : descRange (k + 1) = k :: descRange k := by
  simp [descRange, List.range_succ]

theorem startNextLoop_inv (n c : Nat) :
    ∀ (fuel : Nat) (fl log fl2 log2 : List Nat),
      startNextLoop n c fuel fl log = (fl2, log2) →
      log.length = c + fl.length →
      log = descRange log.length →
      fl.Nodup →
      (∀ i ∈ fl, i < log.length) →
      log.length ≤ n →
      fl.length ≤ batchSize →
      (log2.length = c + fl2.length ∧ log2 = descRange log2.length ∧
       fl2.Nodup ∧ (∀ i ∈ fl2, i < log2.length) ∧ log2.length ≤ n ∧
       fl2.length ≤ batchSize ∧ ∀ i ∈ fl, i ∈ fl2) := by
  intro fuel
  induction fuel with
  | zero =>
    intro fl log fl2 log2 heq h1 h2 h3 h4 h5 h6
    simp only [startNextLoop, Prod.mk.injEq] at heq
    obtain ⟨rfl, rfl⟩ := heq
    exact ⟨h1, h2, h3, h4, h5, h6, fun i hi => hi⟩
  | succ fuel ih =>
    intro fl log fl2 log2 heq h1 h2 h3 h4 h5 h6
    by_cases hc : fl.length < batchSize ∧ c + fl.length < n
    · rw [startNextLoop, if_pos hc] at heq
      have hfresh : c + fl.length ∉ fl := by
        intro hmem
        have := h4 _ hmem
        omega
      have hres := ih ((c + fl.length) :: fl) ((c + fl.length) :: log) fl2 log2 heq
        (by simp; omega)
        (by
          have hlen : ((c + fl.length) :: log).length = log.length + 1 := by simp
          rw [hlen, descRange_succ, ← h2, ← h1])
        (List.nodup_cons.mpr ⟨hfresh, h3⟩)
        (by
          intro i hi
          rcases List.mem_cons.mp hi with h | h
          · simp [h, h1]
          · have := h4 _ h
            simp
            omega)
        (by simp; omega)
        (by simp; omega)
      refine ⟨hres.1, hres.2.1, hres.2.2.1, hres.2.2.2.1, hres.2.2.2.2.1,
        hres.2.2.2.2.2.1, ?_⟩
      intro i hi
      exact hres.2.2.2.2.2.2 i (List.mem_cons_of_mem _ hi)
    · rw [startNextLoop, if_neg hc] at heq
      obtain ⟨rfl, rfl⟩ := Prod.mk.injEq .. ▸ heq
      exact ⟨h1, h2, h3, h4, h5, h6, fun i hi => hi⟩

theorem contains_iff_mem {l : List Nat} {i : Nat} : l.contains i = true ↔ i ∈ l := by
  simp [List.contains_iff_exists_mem_beq]

theorem pipeInit_schedInv {E : Type} (sigs : List SigInfo) :
    SchedInv sigs.length (pipeInit (E := E) sigs) := by
  have h := startNextLoop_inv sigs.length 0 batchSize [] []
    (startNextLoop sigs.length 0 batchSize [] []).1
    (startNextLoop sigs.length 0 batchSize [] []).2
    (by rw [Prod.mk.eta]) (by simp) (by simp [descRange]) (by simp)
    (by simp) (by simp) (by simp)
  exact
    { log_len := by simpa [pipeInit] using h.1
    , log_desc := by simpa [pipeInit] using h.2.1
    , flight_nodup := by simpa [pipeInit] using h.2.2.1
    , flight_lt := by simpa [pipeInit] using h.2.2.2.1
    , log_le := by simpa [pipeInit] using h.2.2.2.2.1
    , flight_le := by simpa [pipeInit] using h.2.2.2.2.2.1
    , resolved_eq := by simp [pipeInit] }

theorem stepFetch_schedInv {E : Type} (V : Variant E) (sigs : List SigInfo)
    (i : Nat) (s : PState E) (h : SchedInv sigs.length s) :
    SchedInv sigs.length (stepFetch V sigs i s) := by
  by_cases hm : s.inFlight.contains i
  · have hmem : i ∈ s.inFlight := contains_iff_mem.mp hm
    cases hg : sigs[i]? with
    | none => simpa [stepFetch, hm, hg] using h
    | some sg =>
      have hflpos : 1 ≤ s.inFlight.length := List.length_pos.mpr
        (List.ne_nil_of_mem hmem)
      have hclt : s.completed < sigs.length := by
        have h1 := h.log_len
        have h2 := h.log_le
        omega
      have herase_len : (s.inFlight.erase i).length = s.inFlight.length - 1 :=
        List.length_erase_of_mem hmem
      have hsub : ∀ j ∈ s.inFlight.erase i, j ∈ s.inFlight :=
        fun j hj => List.mem_of_mem_erase hj
      have hsn := startNextLoop_inv sigs.length (s.completed + 1) batchSize
        (s.inFlight.erase i) s.launchLog
        (startNextLoop sigs.length (s.completed + 1) batchSize
          (s.inFlight.erase i) s.launchLog).1
        (startNextLoop sigs.length (s.completed + 1) batchSize
          (s.inFlight.erase i) s.launchLog).2
        (by rw [Prod.mk.eta])
        (by rw [h.log_len, herase_len]; omega)
        h.log_desc
        (h.flight_nodup.erase i)
        (fun j hj => h.flight_lt j (hsub j hj))
        h.log_le
        (by have := h.flight_le; rw [herase_len]; omega)
      refine
        { log_len := ?_, log_desc := ?_, flight_nodup := ?_, flight_lt := ?_
        , log_le := ?_, flight_le := ?_, resolved_eq := ?_ } <;>
        simp only [stepFetch, hm, if_true, hg]
      · exact hsn.1
      · exact hsn.2.1
      · exact hsn.2.2.1
      · exact hsn.2.2.2.1
      · exact hsn.2.2.2.2.1
      · exact hsn.2.2.2.2.2.1
      · intro p hp
        by_cases hres : s.completed + 1 = sigs.length
        · simp only [hres, if_true] at hp
          cases hp
          exact ⟨rfl, hres⟩
        · simp only [hres, if_false] at hp
          have := (h.resolved_eq p hp).2
          omega
  · have hm2 : i ∉ s.inFlight := fun hmem => hm (contains_iff_mem.mpr hmem)
    simpa [stepFetch, hm2] using h

theorem stepDecode_schedInv {E : Type} (V : Variant E) (sigs : List SigInfo)
    (i : Nat) (s : PState E) (h : SchedInv sigs.length s) :
    SchedInv sigs.length (stepDecode V sigs i s) := by
  by_cases hm : s.pending.contains i
  · cases hg : sigs[i]? with
    | none => simpa [stepDecode, hm, hg] using h
    | some sg =>
      cases ho : sg.outcome with
      | failure => simpa [stepDecode, hm, hg, ho] using h
      | success tx =>
        refine
          { log_len := ?_, log_desc := ?_, flight_nodup := ?_, flight_lt := ?_
          , log_le := ?_, flight_le := ?_, resolved_eq := ?_ } <;>
          simp only [stepDecode, hm, if_true, hg, ho]
        · exact h.log_len
        · exact h.log_desc
        · exact h.flight_nodup
        · exact h.flight_lt
        · exact h.log_le
        · exact h.flight_le
        · exact h.resolved_eq
  · have hm2 : i ∉ s.pending := fun hmem => hm (contains_iff_mem.mpr hmem)
    simpa [stepDecode, hm2] using h

theorem pipeRun_schedInv {E : Type} (V : Variant E) (sigs : List SigInfo)
    (sched : List Label) : SchedInv sigs.length (pipeRun V sigs sched) := by
  suffices h : ∀ s : PState E, SchedInv sigs.length s →
      SchedInv sigs.length (sched.foldl
        (fun s l =>
          match l with
          | .fetchDone i => stepFetch V sigs i s
          | .decodeDone i => stepDecode V sigs i s) s) by
    exact h _ (pipeInit_schedInv sigs)
  induction sched with
  | nil => intro s hs; exact hs
  | cons l rest ih =>
    intro s hs
    cases l with
    | fetchDone i => exact ih _ (stepFetch_schedInv V sigs i s hs)
    | decodeDone i => exact ih _ (stepDecode_schedInv V sigs i s hs)

theorem stepFetch_eq {E : Type} (V : Variant E) (sigs : List SigInfo) (i : Nat)
    (s : PState E) (hm : i ∈ s.inFlight) (sg : SigInfo)
    (hg : sigs[i]? = some sg) :
    stepFetch V sigs i s =
      { completed := s.completed + 1
      , inFlight := (startNextLoop sigs.length (s.completed + 1) batchSize
          (s.inFlight.erase i) s.launchLog).1
      , launchLog := (startNextLoop sigs.length (s.completed + 1) batchSize
          (s.inFlight.erase i) s.launchLog).2
      , pending := (fetchUpdate V i sg s).2.1
      , transactions := (fetchUpdate V i sg s).1
      , errorLog := (fetchUpdate V i sg s).2.2
      , resolved :=
          if s.completed + 1 = sigs.length then
            some (sigs.length, (fetchUpdate V i sg s).1.length)
          else s.resolved } := by
  simp [stepFetch, hm, hg]

theorem stepFetch_not_inFlight {E : Type} (V : Variant E) (sigs : List SigInfo)
    (i : Nat) (s : PState E) (hm : i ∉ s.inFlight) :
    stepFetch V sigs i s = s := by
  simp [stepFetch, hm]

theorem stepFetch_none {E : Type} (V : Variant E) (sigs : List SigInfo)
    (i : Nat) (s : PState E) (hg : sigs[i]? = none) :
    stepFetch V sigs i s = s := by
  by_cases hm : i ∈ s.inFlight
  · simp [stepFetch, hm, hg]
  · simp [stepFetch, hm]

theorem stepDecode_eq {E : Type} (V : Variant E) (sigs : List SigInfo) (i : Nat)
    (s : PState E) (hm : i ∈ s.pending) (nm : String) (tx : TxData)
    (hg : sigs[i]? = some { signature := nm, outcome := .success tx }) :
    stepDecode V sigs i s =
      { s with pending := s.pending.erase i
             , transactions := V.decodeEffect i { signature := nm, outcome := .success tx }
                 tx s.transactions } := by
  simp [stepDecode, hm, hg]

theorem stepDecode_not_pending {E : Type} (V : Variant E) (sigs : List SigInfo)
    (i : Nat) (s : PState E) (hm : i ∉ s.pending) :
    stepDecode V sigs i s = s := by
  simp [stepDecode, hm]

theorem fetchUpdate_failure {E : Type} (V : Variant E) (i : Nat) (nm : String)
    (s : PState E) :
    fetchUpdate V i { signature := nm, outcome := .failure } s =
      (s.transactions, s.pending, s.errorLog ++ [i]) := rfl

theorem fetchUpdate_success {E : Type} (V : Variant E) (i : Nat) (nm : String)
    (tx : TxData) (s : PState E) :
    fetchUpdate V i { signature := nm, outcome := .success tx } s =
      ((V.fetchEffect i { signature := nm, outcome := .success tx } tx
          s.transactions s.pending).1,
       (V.fetchEffect i { signature := nm, outcome := .success tx } tx
          s.transactions s.pending).2,
       s.errorLog) := rfl

/-- Payload invariant of variant 2 runs: no pending decode tasks exist,
the resolved `pumpfunCount` snapshot stays equal to the length of the
collected list, every collected entry comes from a successfully fetched,
classified-matched record whose synchronous decode did not throw (with
`decoded = none` exactly when the inner-instruction scan found nothing),
and every logged error comes from a failed fetch. -/
structure V2Inv (sigs : List SigInfo) (s : PState TxEntryV2) : Prop where
  pending_nil : s.pending = []
  res_count : ∀ p, s.resolved = some p → p.2 = s.transactions.length
  prov : ∀ e ∈ s.transactions, ∃ tx,
    sigs[e.idx]? = some { signature := e.signature, outcome := .success tx } ∧
    isPumpfunTx tx ≠ 0 ∧ parsePumpfunTxMin tx ≠ .thrown ∧
    e.timestamp = tx.blockTime ∧ e.slot = tx.slot ∧
    e.success = (tx.meta.err == none) ∧
    ((parsePumpfunTxMin tx = .noMatch ∧ e.decoded = none) ∨
     (∃ r, parsePumpfunTxMin tx = .parsed r ∧ e.decoded = some r))
  err_prov : ∀ i ∈ s.errorLog, ∃ nm,
    sigs[i]? = some { signature := nm, outcome := .failure }

theorem v2Fetch_cases (i : Nat) (sg : SigInfo) (tx : TxData)
    (txs : List TxEntryV2) (pend : List Nat) :
    (v2Fetch i sg tx txs pend = (txs, pend) ∧
      (isPumpfunTx tx = 0 ∨ parsePumpfunTxMin tx = .thrown)) ∨
    (∃ d, v2Fetch i sg tx txs pend =
      (txs ++ [{ idx := i, signature := sg.signature, timestamp := tx.blockTime
               , slot := tx.slot, success := tx.meta.err == none, decoded := d }],
       pend) ∧
      isPumpfunTx tx ≠ 0 ∧
      ((parsePumpfunTxMin tx = .noMatch ∧ d = none) ∨
       (∃ r, parsePumpfunTxMin tx = .parsed r ∧ d = some r))) := by
  by_cases hz : isPumpfunTx tx = 0
  · exact Or.inl ⟨by simp [v2Fetch, hz], Or.inl hz⟩
  · cases hp : parsePumpfunTxMin tx with
    | thrown => exact Or.inl ⟨by simp [v2Fetch, hz, hp], Or.inr rfl⟩
    | noMatch =>
      exact Or.inr ⟨none, by simp [v2Fetch, hz, hp], hz, Or.inl ⟨rfl, rfl⟩⟩
    | parsed r =>
      exact Or.inr ⟨some r, by simp [v2Fetch, hz, hp], hz, Or.inr ⟨r, rfl, rfl⟩⟩

theorem stepFetch_v2Inv (sigs : List SigInfo) (i : Nat) (s : PState TxEntryV2)
    (hs : SchedInv sigs.length s) (h : V2Inv sigs s) :
    V2Inv sigs (stepFetch VariantV2 sigs i s) := by
  by_cases hm : i ∈ s.inFlight
  · cases hg : sigs[i]? with
    | none => rw [stepFetch_none VariantV2 sigs i s hg]; exact h
    | some sg =>
      have hflpos : 1 ≤ s.inFlight.length := List.length_pos.mpr
        (List.ne_nil_of_mem hm)
      have hclt : s.completed < sigs.length := by
        have h1 := hs.log_len
        have h2 := hs.log_le
        omega
      have hresn : s.resolved = none := by
        cases hr : s.resolved with
        | none => rfl
        | some p =>
          have := (hs.resolved_eq p hr).2
          omega
      rw [stepFetch_eq VariantV2 sigs i s hm sg hg]
      obtain ⟨nm, outc⟩ := sg
      cases outc with
      | failure =>
        rw [fetchUpdate_failure]
        refine { pending_nil := h.pending_nil, res_count := ?_, prov := h.prov
               , err_prov := ?_ }
        · intro p hp
          simp only at hp
          by_cases hr : s.completed + 1 = sigs.length
          · rw [if_pos hr] at hp
            cases hp
            rfl
          · rw [if_neg hr, hresn] at hp
            cases hp
        · intro j hj
          simp only at hj
          rcases List.mem_append.mp hj with hold | hnew
          · exact h.err_prov j hold
          · rw [List.mem_singleton.mp hnew]
            exact ⟨nm, hg⟩
      | success tx =>
        rw [fetchUpdate_success]
        rcases v2Fetch_cases i { signature := nm, outcome := .success tx } tx
            s.transactions s.pending with
          ⟨heq, _⟩ | ⟨d, heq, hne, hd⟩
        · simp only [VariantV2] at *
          rw [heq]
          refine { pending_nil := h.pending_nil, res_count := ?_, prov := h.prov
                 , err_prov := h.err_prov }
          intro p hp
          simp only at hp
          by_cases hr : s.completed + 1 = sigs.length
          · rw [if_pos hr] at hp
            cases hp
            rfl
          · rw [if_neg hr, hresn] at hp
            cases hp
        · simp only [VariantV2] at *
          rw [heq]
          refine { pending_nil := h.pending_nil, res_count := ?_, prov := ?_
                 , err_prov := h.err_prov }
          · intro p hp
            simp only at hp
            by_cases hr : s.completed + 1 = sigs.length
            · rw [if_pos hr] at hp
              cases hp
              rfl
            · rw [if_neg hr, hresn] at hp
              cases hp
          · intro e he
            simp only at he
            rcases List.mem_append.mp he with hold | hnew
            · exact h.prov e hold
            · rw [List.mem_singleton.mp hnew]
              refine ⟨tx, hg, hne, ?_, rfl, rfl, rfl, ?_⟩
              · rcases hd with ⟨hp1, _⟩ | ⟨r, hp1, _⟩ <;> simp [hp1]
              · rcases hd with ⟨hp1, hd1⟩ | ⟨r, hp1, hd1⟩
                · exact Or.inl ⟨hp1, hd1⟩
                · exact Or.inr ⟨r, hp1, hd1⟩
  · rw [stepFetch_not_inFlight VariantV2 sigs i s hm]
    exact h

theorem stepDecode_v2Inv (sigs : List SigInfo) (i : Nat) (s : PState TxEntryV2)
    (h : V2Inv sigs s) : V2Inv sigs (stepDecode VariantV2 sigs i s) := by
  have hm : i ∉ s.pending := by
    rw [h.pending_nil]
    exact List.not_mem_nil i
  rw [stepDecode_not_pending VariantV2 sigs i s hm]
  exact h

theorem pipeRunV2_inv (sigs : List SigInfo) (sched : List Label) :
    SchedInv sigs.length (pipeRunV2 sigs sched) ∧
      V2Inv sigs (pipeRunV2 sigs sched) := by
  refine ⟨pipeRun_schedInv VariantV2 sigs sched, ?_⟩
  unfold pipeRunV2 pipeRun
  suffices h : ∀ s : PState TxEntryV2,
      SchedInv sigs.length s → V2Inv sigs s →
      V2Inv sigs (sched.foldl
        (fun s l =>
          match l with
          | .fetchDone i => stepFetch VariantV2 sigs i s
          | .decodeDone i => stepDecode VariantV2 sigs i s) s) by
    refine h _ (pipeInit_schedInv sigs) ?_
    refine { pending_nil := rfl, res_count := ?_, prov := ?_, err_prov := ?_ } <;>
      simp [pipeInit]
  induction sched with
  | nil => intro s _ hv; exact hv
  | cons l rest ih =>
    intro s hs hv
    cases l with
    | fetchDone i =>
      exact ih _ (stepFetch_schedInv VariantV2 sigs i s hs)
        (stepFetch_v2Inv sigs i s hs hv)
    | decodeDone i =>
      exact ih _ (stepDecode_schedInv VariantV2 sigs i s hs)
        (stepDecode_v2Inv sigs i s hv)

/-- Payload invariant of variant 1 runs: the resolved `pumpfunCount`
snapshot never exceeds the length of the (still growing) collected list. -/
structure V1Inv (s : PState TxEntryV1) : Prop where
  res_le : ∀ p, s.resolved = some p → p.2 ≤ s.transactions.length

theorem v1Fetch_fst (i : Nat) (sg : SigInfo) (tx : TxData)
    (txs : List TxEntryV1) (pend : List Nat) :
    (v1Fetch i sg tx txs pend).1 = txs := by
  unfold v1Fetch
  split <;> rfl

theorem v1Decode_length_le (i : Nat) (sg : SigInfo) (tx : TxData)
    (txs : List TxEntryV1) :
    txs.length ≤ (v1Decode i sg tx txs).length := by
  unfold v1Decode
  cases parsePumpfunTxFull tx <;> simp

theorem stepFetch_v1Inv (sigs : List SigInfo) (i : Nat) (s : PState TxEntryV1)
    (hs : SchedInv sigs.length s) (h : V1Inv s) :
    V1Inv (stepFetch VariantV1 sigs i s) := by
  by_cases hm : i ∈ s.inFlight
  · cases hg : sigs[i]? with
    | none => rw [stepFetch_none VariantV1 sigs i s hg]; exact h
    | some sg =>
      have hflpos : 1 ≤ s.inFlight.length := List.length_pos.mpr
        (List.ne_nil_of_mem hm)
      have hclt : s.completed < sigs.length := by
        have h1 := hs.log_len
        have h2 := hs.log_le
        omega
      have hresn : s.resolved = none := by
        cases hr : s.resolved with
        | none => rfl
        | some p =>
          have := (hs.resolved_eq p hr).2
          omega
      rw [stepFetch_eq VariantV1 sigs i s hm sg hg]
      refine { res_le := ?_ }
      intro p hp
      simp only at hp ⊢
      by_cases hr : s.completed + 1 = sigs.length
      · rw [if_pos hr] at hp
        cases hp
        exact le_refl _
      · rw [if_neg hr, hresn] at hp
        cases hp
  · rw [stepFetch_not_inFlight VariantV1 sigs i s hm]
    exact h

theorem stepDecode_v1Inv (sigs : List SigInfo) (i : Nat) (s : PState TxEntryV1)
    (h : V1Inv s) : V1Inv (stepDecode VariantV1 sigs i s) := by
  by_cases hm : i ∈ s.pending
  · cases hg : sigs[i]? with
    | none =>
      have : stepDecode VariantV1 sigs i s = s := by simp [stepDecode, hm, hg]
      rw [this]
      exact h
    | some sg =>
      obtain ⟨nm, outc⟩ := sg
      cases outc with
      | failure =>
        have : stepDecode VariantV1 sigs i s = s := by simp [stepDecode, hm, hg]
        rw [this]
        exact h
      | success tx =>
        rw [stepDecode_eq VariantV1 sigs i s hm nm tx hg]
        refine { res_le := ?_ }
        intro p hp
        simp only at hp ⊢
        calc p.2 ≤ s.transactions.length := h.res_le p hp
          _ ≤ _ := v1Decode_length_le i
            { signature := nm, outcome := .success tx } tx s.transactions
  · rw [stepDecode_not_pending VariantV1 sigs i s hm]
    exact h

theorem pipeRunV1_inv (sigs : List SigInfo) (sched : List Label) :
    SchedInv sigs.length (pipeRunV1 sigs sched) ∧
      V1Inv (pipeRunV1 sigs sched) := by
  refine ⟨pipeRun_schedInv VariantV1 sigs sched, ?_⟩
  unfold pipeRunV1 pipeRun
  suffices h : ∀ s : PState TxEntryV1,
      SchedInv sigs.length s → V1Inv s →
      V1Inv (sched.foldl
        (fun s l =>
          match l with
          | .fetchDone i => stepFetch VariantV1 sigs i s
          | .decodeDone i => stepDecode VariantV1 sigs i s) s) by
    refine h _ (pipeInit_schedInv sigs) ?_
    refine { res_le := ?_ }
    simp [pipeInit]
  induction sched with
  | nil => intro s _ hv; exact hv
  | cons l rest ih =>
    intro s hs hv
    cases l with
    | fetchDone i =>
      exact ih _ (stepFetch_schedInv VariantV1 sigs i s hs)
        (stepFetch_v1Inv sigs i s hs hv)
    | decodeDone i =>
      exact ih _ (stepDecode_schedInv VariantV1 sigs i s hs)
        (stepDecode_v1Inv sigs i s hv)

theorem getD_lt_256 {b : List Nat} (hb : ∀ x ∈ b, x < 256) (i : Nat) :
    b.getD i 0 < 256 := by
  rw [List.getD_eq_getElem?_getD]
  cases hg : b[i]? with
  | none => simp
  | some x => simpa using hb x (List.getElem?_mem hg)

theorem readUInt64LE_lt_half_iff (b : List Nat) (off : Nat)
    (hb : ∀ x ∈ b, x < 256) :
    readUInt64LE b off < 2 ^ 63 ↔ b.getD (off + 7) 0 < 128 := by
  have h0 := getD_lt_256 hb off
  have h1 := getD_lt_256 hb (off + 1)
  have h2 := getD_lt_256 hb (off + 2)
  have h3 := getD_lt_256 hb (off + 3)
  have h4 := getD_lt_256 hb (off + 4)
  have h5 := getD_lt_256 hb (off + 5)
  have h6 := getD_lt_256 hb (off + 6)
  unfold readUInt64LE
  have hpow : (2:Nat) ^ 63 = 9223372036854775808 := by norm_num
  rw [hpow]
  omega

theorem toInt64_lt_half (n : Nat) (h : n < 2 ^ 63) : toInt64 n = (n : Int) := by
  rw [toInt64, if_pos h]

theorem toInt64_ne_of_ge (n : Nat) (h : 2 ^ 63 ≤ n) : toInt64 n ≠ (n : Int) := by
  unfold toInt64
  rw [if_neg (by omega)]
  intro hcontra
  omega

theorem readInt64LE_eq_unsigned_iff (b : List Nat) (off : Nat)
    (hb : ∀ x ∈ b, x < 256) :
    readInt64LE b off = (readUInt64LE b off : Int) ↔ b.getD (off + 7) 0 < 128 := by
  constructor
  · intro h
    by_contra htop
    exact toInt64_ne_of_ge (readUInt64LE b off)
      (by
        have := (readUInt64LE_lt_half_iff b off hb).not.mpr htop
        omega) h
  · intro htop
    exact toInt64_lt_half _ ((readUInt64LE_lt_half_iff b off hb).mpr htop)

theorem decodeMin_malformed_iff (b : List Nat) :
    decodeMin b = .malformed ↔ b.length < 64 := by
  by_cases h : b.length < 64
  · rw [decodeMin, if_pos (by simp; omega)]
    simp [h]
  · rw [decodeMin, if_neg (by simp; omega)]
    simp [h]

theorem decodeMin_ok_of_ge (b : List Nat) (h : 64 ≤ b.length) :
    decodeMin b =
      .ok { solAmount := readInt64LE b 48, tokenAmount := readInt64LE b 56
          , isBuy := b[64]? == some 1 } := by
  rw [decodeMin, if_neg (by simp; omega)]

/-- A buy-classified record whose inner-instruction scan finds nothing
(empty inner-instruction list). -/
def noInnerBuyTx : TxData :=
  { transaction :=
      { message := { instructions := [{ programId := PUMPFUN_PROGRAM_ID, data := [] }] }
      , signatures := ["sigX"] }
  , meta :=
      { logMessages := ["Program log: Instruction: Buy"]
      , innerInstructions := []
      , err := none }
  , slot := 3
  , blockTime := 100 }

/-- A record whose logs carry both the buy and the sell marker. -/
def bothMarkersTx : TxData :=
  { transaction :=
      { message := { instructions := [{ programId := PUMPFUN_PROGRAM_ID, data := [] }] }
      , signatures := ["sigY"] }
  , meta :=
      { logMessages := ["Program log: Instruction: Buy",
                        "Program log: Instruction: Sell"]
      , innerInstructions := []
      , err := none }
  , slot := 4
  , blockTime := 200 }

/-- A record referencing the program but with no recognized marker. -/
def noMarkerTx : TxData :=
  { transaction :=
      { message := { instructions := [{ programId := PUMPFUN_PROGRAM_ID, data := [] }] }
      , signatures := ["sigZ"] }
  , meta :=
      { logMessages := ["Program data: vdt/007mYe4"]
      , innerInstructions := []
      , err := none }
  , slot := 5
  , blockTime := 300 }

/-- C3: in full mode, a blob whose length differs from 137 bytes yields no
event (`MalformedPayload` / skipped), and a 137-byte blob decodes to the
mint, solAmount, tokenAmount, isBuy and timestamp fields. -/
theorem c3_full_mode_length_gate :
    ∀ b : List Nat,
      (b.length ≠ 137 → decodeFull b = none) ∧
      (b.length = 137 → decodeFull b =
        some { mint := (b.drop 16).take 32
             , solAmount := readInt64LE b 48
             , tokenAmount := readInt64LE b 56
             , isBuy := b[64]? == some 1
             , timestamp := readInt64LE b 97 }) := by
  intro b
  constructor
  · intro h
    rw [decodeFull, if_neg h]
  · intro h
    rw [decodeFull, if_pos h]

set_option maxRecDepth 10000 in
/-- C3 witness: the length gate evaluated at a 136-byte blob, a 138-byte
blob, and the documented 137-byte fixture. -/
theorem c3_full_mode_length_gate_witness :
    decodeFull (List.replicate 136 0) = none ∧
    decodeFull (List.replicate 138 0) = none ∧
    decodeFull fixtureBlob =
      some { mint := (fixtureBlob.drop 16).take 32
           , solAmount := readInt64LE fixtureBlob 48
           , tokenAmount := readInt64LE fixtureBlob 56
           , isBuy := fixtureBlob[64]? == some 1
           , timestamp := readInt64LE fixtureBlob 97 } :=
  ⟨(c3_full_mode_length_gate (List.replicate 136 0)).1 (by decide),
   (c3_full_mode_length_gate (List.replicate 138 0)).1 (by decide),
   (c3_full_mode_length_gate fixtureBlob).2 (by decide)⟩

/-- C4 counterexample: the claim says every blob shorter than 65 bytes —
a 64-byte blob in particular — fails with `MalformedPayload`, but the
minimal-mode decoder succeeds on a 64-byte blob (both 8-byte reads fit,
and `encoded[64]` merely reads `undefined`, giving `isBuy = false`). -/
theorem c4_minimal_threshold_cex :
    decodeMin (List.replicate 64 0) =
      .ok { solAmount := 0, tokenAmount := 0, isBuy := false } ∧
    (List.replicate 64 (0 : Nat)).length = 64 := by
  constructor
  · decide
  · decide

/-- C4 (amended): minimal mode fails with `MalformedPayload` exactly on
blobs shorter than 64 bytes; on 64 bytes or more it succeeds, reading
solAmount/tokenAmount/isBuy at offsets 48/56/64, and on exactly 64 bytes
the missing byte at offset 64 yields `isBuy = false`. -/
theorem c4_minimal_threshold :
    ∀ b : List Nat,
      (decodeMin b = .malformed ↔ b.length < 64) ∧
      (64 ≤ b.length → decodeMin b =
        .ok { solAmount := readInt64LE b 48, tokenAmount := readInt64LE b 56
            , isBuy := b[64]? == some 1 }) ∧
      (b.length = 64 → decodeMin b =
        .ok { solAmount := readInt64LE b 48, tokenAmount := readInt64LE b 56
            , isBuy := false }) := by
  intro b
  refine ⟨decodeMin_malformed_iff b, fun h => decodeMin_ok_of_ge b h, fun h => ?_⟩
  rw [decodeMin_ok_of_ge b (le_of_eq h.symm)]
  have hnone : b[64]? = none := List.getElem?_eq_none (by omega)
  rw [hnone]
  rfl

/-- C4 witness: the amended threshold evaluated at 63-, 64- and 65-byte
blobs. -/
theorem c4_minimal_threshold_witness :
    decodeMin (List.replicate 63 0) = .malformed ∧
    decodeMin (List.replicate 65 0) =
      .ok { solAmount := readInt64LE (List.replicate 65 0) 48
          , tokenAmount := readInt64LE (List.replicate 65 0) 56
          , isBuy := (List.replicate 65 (0 : Nat))[64]? == some 1 } ∧
    decodeMin (List.replicate 64 0) =
      .ok { solAmount := readInt64LE (List.replicate 64 0) 48
          , tokenAmount := readInt64LE (List.replicate 64 0) 56
          , isBuy := false } :=
  ⟨(c4_minimal_threshold (List.replicate 63 0)).1.mpr (by decide),
   (c4_minimal_threshold (List.replicate 65 0)).2.1 (by decide),
   (c4_minimal_threshold (List.replicate 64 0)).2.2 (by decide)⟩

/-- C8: a record referencing the target program whose logs contain both
the buy and the sell marker classifies as Buy (the buy check runs first),
and with the program reference but neither marker it classifies as
NotMatched (0). -/
theorem c8_buy_precedence :
    ∀ tx : TxData,
      (referencesPumpfun tx = true →
        hasLogContaining tx "Program log: Instruction: Buy" = true →
        hasLogContaining tx "Program log: Instruction: Sell" = true →
        isPumpfunTx tx = 1) ∧
      (referencesPumpfun tx = true →
        hasLogContaining tx "Program log: Instruction: Buy" = false →
        hasLogContaining tx "Program log: Instruction: Sell" = false →
        isPumpfunTx tx = 0) := by
  intro tx
  constructor
  · intro h1 h2 _
    rw [isPumpfunTx, if_pos h1, if_pos h2]
  · intro h1 h2 h3
    rw [isPumpfunTx, if_pos h1, if_neg (by simp [h2]), if_neg (by simp [h3])]

/-- C8 witness: Buy precedence on a record carrying both markers, and
NotMatched on a program-referencing record with no marker. -/
theorem c8_buy_precedence_witness :
    isPumpfunTx bothMarkersTx = 1 ∧ isPumpfunTx noMarkerTx = 0 :=
  ⟨(c8_buy_precedence bothMarkersTx).1 (by decide) (by decide) (by decide),
   (c8_buy_precedence noMarkerTx).2 (by decide) (by decide) (by decide)⟩

/-- C9 counterexample: the claim says solAmount is the UNSIGNED 64-bit
little-endian integer at bytes 48..55, but the code uses
`readBigInt64LE`, a SIGNED read.  On a 65-byte blob whose byte 55 is
0x80, the code returns -9223372036854775808 while the unsigned value is
9223372036854775808. -/
theorem c9_unsigned_read_cex :
    decodeMin (List.replicate 55 0 ++ 128 :: List.replicate 9 0) =
      .ok { solAmount := -9223372036854775808, tokenAmount := 0, isBuy := false } ∧
    readUInt64LE (List.replicate 55 0 ++ 128 :: List.replicate 9 0) 48 =
      9223372036854775808 ∧
    (-9223372036854775808 : Int) ≠ 9223372036854775808 := by
  refine ⟨by decide, by decide, by decide⟩

set_option maxRecDepth 10000 in
/-- C9 (amended): on byte-valid blobs of length at least 64, the decoder
reads solAmount and tokenAmount as SIGNED 64-bit little-endian integers
at offsets 48 and 56; the signed read agrees with the unsigned
interpretation exactly when the top byte's high bit is clear; and the
documented 137-byte fixture decodes to solAmount 491103214, tokenAmount
12256633644127, isBuy true, timestamp 1738840559. -/
theorem c9_decode_amounts :
    (∀ b : List Nat, (∀ x ∈ b, x < 256) → 64 ≤ b.length →
      decodeMin b =
        .ok { solAmount := readInt64LE b 48, tokenAmount := readInt64LE b 56
            , isBuy := b[64]? == some 1 } ∧
      (readInt64LE b 48 = (readUInt64LE b 48 : Int) ↔ b.getD 55 0 < 128) ∧
      (readInt64LE b 56 = (readUInt64LE b 56 : Int) ↔ b.getD 63 0 < 128)) ∧
    decodeFull fixtureBlob =
      some { mint := fixtureMint, solAmount := 491103214
           , tokenAmount := 12256633644127, isBuy := true
           , timestamp := 1738840559 } := by
  constructor
  · intro b hb hlen
    refine ⟨decodeMin_ok_of_ge b hlen, ?_, ?_⟩
    · exact readInt64LE_eq_unsigned_iff b 48 hb
    · exact readInt64LE_eq_unsigned_iff b 56 hb
  · decide

set_option maxRecDepth 10000 in
/-- C9 witness: the amended statement instantiated at the documented
fixture blob (byte-valid, 137 bytes long, both high bits clear). -/
theorem c9_decode_amounts_witness :
    decodeMin fixtureBlob =
      .ok { solAmount := readInt64LE fixtureBlob 48
          , tokenAmount := readInt64LE fixtureBlob 56
          , isBuy := fixtureBlob[64]? == some 1 } ∧
    (readInt64LE fixtureBlob 48 = (readUInt64LE fixtureBlob 48 : Int) ↔
      fixtureBlob.getD 55 0 < 128) ∧
    (readInt64LE fixtureBlob 56 = (readUInt64LE fixtureBlob 56 : Int) ↔
      fixtureBlob.getD 63 0 < 128) :=
  c9_decode_amounts.1 fixtureBlob (by decide) (by decide)

set_option maxRecDepth 10000 in
/-- C1 counterexample: in the async-decode variant, a single matched
signature resolves with `pumpfunCount = 0` while the pending decode later
pushes the event, so the observed result has `pumpfunCount = 0` but a
collected list of length 1. -/
theorem c1_matched_count_cex :
    (pipeRunV1 [{ signature := "sig0", outcome := .success buyTxFull }]
        [.fetchDone 0, .decodeDone 0]).resolved = some (1, 0) ∧
    (pipeRunV1 [{ signature := "sig0", outcome := .success buyTxFull }]
        [.fetchDone 0, .decodeDone 0]).transactions.length = 1 := by
  refine ⟨by decide, by decide⟩

/-- C1 (amended): in the synchronous-decode variant the resolved
`pumpfunCount` always equals the length of the collected list, at
resolution and at every later point; in the async-decode variant it is
only a lower bound, because decodes still pending at resolution append
events afterwards without updating the count. -/
theorem c1_matched_count :
    ∀ (sigs : List SigInfo) (sched : List Label) (p : Nat × Nat),
      ((pipeRunV2 sigs sched).resolved = some p →
        p.2 = (pipeRunV2 sigs sched).transactions.length) ∧
      ((pipeRunV1 sigs sched).resolved = some p →
        p.2 ≤ (pipeRunV1 sigs sched).transactions.length) :=
  fun sigs sched p =>
    ⟨fun hp => (pipeRunV2_inv sigs sched).2.res_count p hp,
     fun hp => (pipeRunV1_inv sigs sched).2.res_le p hp⟩

set_option maxRecDepth 10000 in
/-- C1 witness: the amended statement applied to a concrete
one-signature synchronous-decode run that resolves with count 1. -/
theorem c1_matched_count_witness :
    (pipeRunV2 [{ signature := "sigX", outcome := .success noInnerBuyTx }]
        [.fetchDone 0]).resolved = some (1, 1) ∧
    ((1 : Nat), (1 : Nat)).2 =
      (pipeRunV2 [{ signature := "sigX", outcome := .success noInnerBuyTx }]
        [.fetchDone 0]).transactions.length :=
  ⟨by decide,
   (c1_matched_count [{ signature := "sigX", outcome := .success noInnerBuyTx }]
      [.fetchDone 0] (1, 1)).1 (by decide)⟩

set_option maxRecDepth 10000 in
/-- C2 counterexample: a record classified as Buy whose inner-instruction
scan finds no instruction referencing the target program is NOT dropped:
the synchronous-decode variant pushes an entry carrying only the base
fields (the spread of `undefined` adds nothing) and it counts toward the
matched count. -/
theorem c2_matched_decode_failed_cex :
    isPumpfunTx noInnerBuyTx = 1 ∧
    parsePumpfunTxMin noInnerBuyTx = .noMatch ∧
    (pipeRunV2 [{ signature := "sigX", outcome := .success noInnerBuyTx }]
        [.fetchDone 0]).transactions =
      [{ idx := 0, signature := "sigX", timestamp := 100, slot := 3
       , success := true, decoded := none }] ∧
    (pipeRunV2 [{ signature := "sigX", outcome := .success noInnerBuyTx }]
        [.fetchDone 0]).resolved = some (1, 1) := by
  refine ⟨by decide, by decide, by decide, by decide⟩

/-- C2 (amended): a matched record whose decode THROWS (blob shorter than
64 bytes in minimal mode) is dropped exactly like NotMatched, with no
pipeline-level error; but a matched record whose inner-instruction scan
finds no matching instruction IS appended, with `decoded = none`, and
counts toward the matched count — every collected entry stems from a
matched record whose decode did not throw, and carries no decoded fields
exactly when the scan found nothing. -/
theorem c2_matched_decode_failed :
    ∀ (sigs : List SigInfo) (sched : List Label) (e : TxEntryV2),
      e ∈ (pipeRunV2 sigs sched).transactions → ∃ tx,
        sigs[e.idx]? = some { signature := e.signature, outcome := .success tx } ∧
        isPumpfunTx tx ≠ 0 ∧
        parsePumpfunTxMin tx ≠ .thrown ∧
        ((parsePumpfunTxMin tx = .noMatch ∧ e.decoded = none) ∨
         (∃ r, parsePumpfunTxMin tx = .parsed r ∧ e.decoded = some r)) := by
  intro sigs sched e he
  obtain ⟨tx, h1, h2, h3, _, _, _, h7⟩ := (pipeRunV2_inv sigs sched).2.prov e he
  exact ⟨tx, h1, h2, h3, h7⟩

set_option maxRecDepth 10000 in
/-- C2 witness: the amended statement applied to the concrete entry
collected from the no-inner-instruction buy record. -/
theorem c2_matched_decode_failed_witness :
    ({ idx := 0, signature := "sigX", timestamp := 100, slot := 3
     , success := true, decoded := none } : TxEntryV2) ∈
      (pipeRunV2 [{ signature := "sigX", outcome := .success noInnerBuyTx }]
        [.fetchDone 0]).transactions ∧
    ∃ tx,
      ([{ signature := "sigX", outcome := .success noInnerBuyTx }] :
          List SigInfo)[(0 : Nat)]? =
        some { signature := "sigX", outcome := .success tx } ∧
      isPumpfunTx tx ≠ 0 ∧
      parsePumpfunTxMin tx ≠ .thrown ∧
      ((parsePumpfunTxMin tx = .noMatch ∧
          (none : Option MinimalResult) = none) ∨
       (∃ r, parsePumpfunTxMin tx = .parsed r ∧
          (none : Option MinimalResult) = some r)) :=
  ⟨by decide,
   c2_matched_decode_failed [{ signature := "sigX", outcome := .success noInnerBuyTx }]
     [.fetchDone 0]
     { idx := 0, signature := "sigX", timestamp := 100, slot := 3
     , success := true, decoded := none } (by decide)⟩

/-- C5: on an empty identifier list the pipeline NEVER resolves — the
state stays the initial one (no task exists, and `resolve` is only
reachable from a task's completion callback), so the returned promise
hangs; the caller `getAllTransactions` guards this case by returning `[]`
without invoking the pipeline. -/
theorem c5_empty_input_never_resolves :
    ∀ (E : Type) (V : Variant E) (sched : List Label),
      pipeRun V ([] : List SigInfo) sched = pipeInit [] ∧
      (pipeRun V ([] : List SigInfo) sched).resolved = none := by
  intro E V sched
  have hinit : pipeInit (E := E) ([] : List SigInfo) =
      { completed := 0, inFlight := [], launchLog := [], pending := []
      , transactions := [], errorLog := [], resolved := none } := rfl
  have hfix : pipeRun V ([] : List SigInfo) sched = pipeInit [] := by
    unfold pipeRun
    induction sched with
    | nil => rfl
    | cons l rest ih =>
      rw [List.foldl_cons]
      have hstep :
          (match l with
           | .fetchDone i => stepFetch V [] i (pipeInit [])
           | .decodeDone i => stepDecode V [] i (pipeInit [])) = pipeInit [] := by
        cases l with
        | fetchDone i =>
          exact stepFetch_not_inFlight V [] i _
            (by rw [hinit]; exact List.not_mem_nil i)
        | decodeDone i =>
          exact stepDecode_not_pending V [] i _
            (by rw [hinit]; exact List.not_mem_nil i)
      rw [hstep]
      exact ih
  refine ⟨hfix, ?_⟩
  rw [hfix, hinit]

/-- C6: whenever a run of the synchronous-decode variant resolves, the
returned `txCount` equals the input list length and `completed` reached
that length, no matter which identifiers' fetches failed; every logged
fetch failure stems from a failure-outcome identifier and contributes no
collected entry. -/
theorem c6_fetch_failures_soft :
    ∀ (sigs : List SigInfo) (sched : List Label) (p : Nat × Nat),
      (pipeRunV2 sigs sched).resolved = some p →
      p.1 = sigs.length ∧
      (pipeRunV2 sigs sched).completed = sigs.length ∧
      (∀ i ∈ (pipeRunV2 sigs sched).errorLog, ∃ nm,
        sigs[i]? = some { signature := nm, outcome := .failure } ∧
        ∀ e ∈ (pipeRunV2 sigs sched).transactions, e.idx ≠ i) := by
  intro sigs sched p hp
  obtain ⟨hs, hv⟩ := pipeRunV2_inv sigs sched
  obtain ⟨h1, h2⟩ := hs.resolved_eq p hp
  refine ⟨h1, h2, ?_⟩
  intro i hi
  obtain ⟨nm, hnm⟩ := hv.err_prov i hi
  refine ⟨nm, hnm, ?_⟩
  intro e he heq
  obtain ⟨tx, htx, _⟩ := hv.prov e he
  rw [heq, hnm] at htx
  simp at htx

set_option maxRecDepth 10000 in
/-- C6 witness: a two-signature run where the first fetch fails and the
second is a matched record; the run resolves with `txCount = 2` and the
failed identifier contributes nothing. -/
theorem c6_fetch_failures_soft_witness :
    (pipeRunV2 [{ signature := "bad", outcome := .failure },
                { signature := "sigX", outcome := .success noInnerBuyTx }]
        [.fetchDone 0, .fetchDone 1]).resolved = some (2, 1) ∧
    ((2 : Nat), (1 : Nat)).1 =
      ([{ signature := "bad", outcome := .failure },
        { signature := "sigX", outcome := .success noInnerBuyTx }] :
          List SigInfo).length :=
  ⟨by decide,
   (c6_fetch_failures_soft
      [{ signature := "bad", outcome := .failure },
       { signature := "sigX", outcome := .success noInnerBuyTx }]
      [.fetchDone 0, .fetchDone 1] (2, 1) (by decide)).1⟩

/-- C7: in every run of either variant, under every completion order, the
number of in-flight fetch tasks never exceeds the concurrency limit
`batchSize`. -/
theorem c7_concurrency_ceiling :
    ∀ (E : Type) (V : Variant E) (sigs : List SigInfo) (sched : List Label),
      (pipeRun V sigs sched).inFlight.length ≤ batchSize :=
  fun _ V sigs sched => (pipeRun_schedInv V sigs sched).flight_le

/-- C10: throughout every run, `completed + inProgress.size` equals the
number of fetch tasks launched so far, the launched positions are exactly
`0, 1, ..., k-1` in order (no skips, no repeats), at most one launch per
input position ever happens, and a resolved run has launched all of them. -/
theorem c10_launch_accounting :
    ∀ (E : Type) (V : Variant E) (sigs : List SigInfo) (sched : List Label),
      (pipeRun V sigs sched).completed + (pipeRun V sigs sched).inFlight.length =
        (pipeRun V sigs sched).launchLog.length ∧
      (pipeRun V sigs sched).launchLog =
        descRange (pipeRun V sigs sched).launchLog.length ∧
      (pipeRun V sigs sched).launchLog.length ≤ sigs.length ∧
      (∀ p, (pipeRun V sigs sched).resolved = some p →
        (pipeRun V sigs sched).launchLog.length = sigs.length) := by
  intro E V sigs sched
  have h := pipeRun_schedInv V sigs sched
  refine ⟨h.log_len.symm, h.log_desc, h.log_le, ?_⟩
  intro p hp
  have h1 := (h.resolved_eq p hp).2
  have h2 := h.log_len
  have h3 := h.log_le
  omega

set_option maxRecDepth 10000 in
/-- C10 witness: the launch accounting applied to a resolved concrete
run, showing all input positions were launched. -/
theorem c10_launch_accounting_witness :
    (pipeRunV2 [{ signature := "bad", outcome := .failure },
                { signature := "sigY", outcome := .success bothMarkersTx }]
        [.fetchDone 1, .fetchDone 0]).resolved = some (2, 1) ∧
    (pipeRunV2 [{ signature := "bad", outcome := .failure },
                { signature := "sigY", outcome := .success bothMarkersTx }]
        [.fetchDone 1, .fetchDone 0]).launchLog.length =
      ([{ signature := "bad", outcome := .failure },
        { signature := "sigY", outcome := .success bothMarkersTx }] :
          List SigInfo).length :=
  ⟨by decide,
   (c10_launch_accounting TxEntryV2 VariantV2
      [{ signature := "bad", outcome := .failure },
       { signature := "sigY", outcome := .success bothMarkersTx }]
      [.fetchDone 1, .fetchDone 0]).2.2.2 (2, 1) (by decide)⟩
